import Mathlib

/-!
Shallow embedding of the maze-chase game engine core (`pacman.py`).

Python floats are embedded as rationals: every arithmetic operation the
embedded code performs on coordinates (addition, multiplication by the
integer cell size and speeds, division by the power-of-two cell size) is
exact in IEEE double precision at the magnitudes that occur, so `ℚ` carries
the same values the Python program computes.
-/

namespace Pacman

/-- `Settings.CELL_SIZE`. -/
def CELL_SIZE : ℚ := 32

/-- `Settings.MAZE_OFFSET_X`. -/
def MAZE_OFFSET_X : ℚ := 48

/-- `Settings.MAZE_OFFSET_Y`. -/
def MAZE_OFFSET_Y : ℚ := 120

/-- `Settings.PLAYER_SPEED`. -/
def PLAYER_SPEED : ℚ := 160

/-- `Settings.GHOST_SPEED`. -/
def GHOST_SPEED : ℚ := 140

/-- `Settings.POWER_PELLET_DURATION`. -/
def POWER_PELLET_DURATION : ℚ := 8

/-- `Settings.PLAYER_INVULNERABILITY_DURATION`. -/
def PLAYER_INVULNERABILITY_DURATION : ℚ := 3

/-- `Settings.COLOR_RED`. -/
def COLOR_RED : Nat × Nat × Nat := (255, 0, 0)

/-- `Settings.COLOR_YELLOW`. -/
def COLOR_YELLOW : Nat × Nat × Nat := (255, 255, 0)

/-- Python `Vector2`: a pair of floats. -/
structure Vector2 where
  x : ℚ
  y : ℚ
deriving DecidableEq

/-- `Vector2.__add__`. -/
def Vector2.add (a b : Vector2) : Vector2 := ⟨a.x + b.x, a.y + b.y⟩

instance : Add Vector2 := ⟨Vector2.add⟩

/-- `Vector2.__sub__`. -/
def Vector2.sub (a b : Vector2) : Vector2 := ⟨a.x - b.x, a.y - b.y⟩

/-- `Vector2.__mul__` (scalar multiply). -/
def Vector2.smul (a : Vector2) (scalar : ℚ) : Vector2 := ⟨a.x * scalar, a.y * scalar⟩

/-- Square of `Vector2.length` of `a - b`, i.e. the square of
`Vector2.distance_to`.  The code only compares distances against
non-negative thresholds, so `distance_to a b < t ↔ distSq a b < t²`;
the square root itself is never needed. -/
def Vector2.distSq (a b : Vector2) : ℚ := (a.x - b.x) ^ 2 + (a.y - b.y) ^ 2

/-- The `Direction` enum. -/
inductive Direction
  | NONE
  | UP
  | DOWN
  | LEFT
  | RIGHT
deriving DecidableEq

/-- The `value` of each `Direction` member (a unit grid step). -/
def Direction.value : Direction → Int × Int
  | .NONE => (0, 0)
  | .UP => (0, -1)
  | .DOWN => (0, 1)
  | .LEFT => (-1, 0)
  | .RIGHT => (1, 0)

/-- Lookup of a `Direction` member by value, as Python's `Direction(tuple)`
enum call does; `none` models the `ValueError` raised when no member has
the given value. -/
def Direction.valueOf : Int × Int → Option Direction
  | (0, 0) => some .NONE
  | (0, -1) => some .UP
  | (0, 1) => some .DOWN
  | (-1, 0) => some .LEFT
  | (1, 0) => some .RIGHT
  | _ => none

/-- Negating the value of any `Direction` member always finds a member, so
the `Direction(tuple(-x for x in d.value))` lookup in `Ghost.update` never
raises; this names the member it finds. -/
def Direction.rev : Direction → Direction
  | .NONE => .NONE
  | .UP => .DOWN
  | .DOWN => .UP
  | .LEFT => .RIGHT
  | .RIGHT => .LEFT

theorem Direction.valueOf_neg (d : Direction) :
    Direction.valueOf (-d.value.1, -d.value.2) = some d.rev := by
  cases d <;> rfl

/-- Python `int()` applied to a float: truncation toward zero. -/
def pyInt (q : ℚ) : Int := if 0 ≤ q then ⌊q⌋ else ⌈q⌉

/-- Python `%` on floats with a positive right operand: `x - m * ⌊x / m⌋`
(the result takes the sign of the divisor). -/
def pyMod (x m : ℚ) : ℚ := x - m * ⌊x / m⌋

/-- `Maze.LAYOUT`, verbatim; each row is the character sequence of the
corresponding Python string.  The rows are ragged: lengths range from 21
to 25 while row 0 has length 23. -/
def LAYOUT : List (List Char) := [
  ['1', '1', '1', '1', '1', '1', '1', '1', '1', '1', '1', '1', '1', '1', '1', '1', '1', '1', '1', '1', '1', '1', '1'],
  ['1', 'P', '.', '.', '.', '.', '.', '.', '.', '.', '.', '.', '1', '.', '.', '.', '.', '.', '.', '.', '.', '.', '.', 'P', '1'],
  ['1', '.', '1', '1', '1', '.', '1', '1', '1', '1', '1', '.', '1', '.', '1', '1', '1', '1', '1', '.', '1', '1', '1', '.', '1'],
  ['1', '.', '1', '1', '1', '.', '1', '1', '1', '1', '1', '.', '1', '.', '1', '1', '1', '1', '1', '.', '1', '1', '1', '.', '1'],
  ['1', '.', '.', '.', '.', '.', '.', '.', '.', '.', '.', '.', '.', '.', '.', '.', '.', '.', '.', '.', '.', '.', '.', '.', '1'],
  ['1', '.', '1', '1', '1', '.', '1', '.', '1', '1', '1', '1', '1', '1', '1', '.', '1', '.', '1', '1', '1', '.', '1'],
  ['1', '.', '.', '.', '.', '.', '1', '.', '.', '.', '1', '.', '.', '.', '1', '.', '.', '.', '1', '.', '.', '.', '.', '.', '1'],
  ['1', '1', '1', '1', '1', '.', '1', '1', '1', '.', '1', '.', '1', '1', '1', '.', '1', '1', '1', '1', '1'],
  [' ', ' ', ' ', ' ', '1', '.', '1', ' ', ' ', ' ', 'G', ' ', ' ', ' ', '1', '.', '1', ' ', ' ', ' ', ' '],
  ['1', '1', '1', '1', '1', '.', '1', ' ', '1', '1', '1', '1', '1', ' ', '1', '.', '1', '1', '1', '1', '1'],
  ['1', '.', '.', '.', '.', '.', '.', '.', '1', ' ', ' ', ' ', '1', '.', '.', '.', '.', '.', '.', '.', '1'],
  ['1', '1', '1', '1', '1', '.', '1', ' ', '1', '1', 'S', '1', '1', ' ', '1', '.', '1', '1', '1', '1', '1'],
  [' ', ' ', ' ', ' ', '1', '.', '1', ' ', ' ', ' ', ' ', ' ', ' ', ' ', '1', '.', '1', ' ', ' ', ' ', ' '],
  ['1', '1', '1', '1', '1', '.', '1', ' ', '1', '1', '1', '1', '1', ' ', '1', '.', '1', '1', '1', '1', '1'],
  ['1', '.', '.', '.', '.', '.', '.', '.', '.', '.', '.', '.', '1', '.', '.', '.', '.', '.', '.', '.', '.', '.', '.', '.', '1'],
  ['1', '.', '1', '1', '1', '.', '1', '1', '1', '1', '1', '.', '1', '.', '1', '1', '1', '1', '1', '.', '1', '1', '1', '.', '1'],
  ['1', '.', '.', '.', 'P', '.', '.', '.', '1', '.', '.', '.', '1', '.', '.', '.', '1', '.', '.', '.', 'P', '.', '.', '.', '1'],
  ['1', '1', '1', '.', '1', '1', '1', '.', '1', '.', '1', '1', '1', '1', '1', '.', '1', '.', '1', '1', '1', '.', '1', '1', '1'],
  ['1', '.', '.', '.', '.', '.', '.', '.', '1', '.', '.', '.', '1', '.', '.', '.', '1', '.', '.', '.', '.', '.', '.', '.', '1'],
  ['1', '.', '1', '1', '1', '1', '1', '1', '1', '1', '1', '.', '1', '1', '1', '1', '1', '1', '1', '1', '1', '1', '.', '1'],
  ['1', 'P', '.', '.', '.', '.', '.', '.', '.', '.', '.', '.', '.', '.', '.', '.', '.', '.', '.', '.', '.', '.', '.', 'P', '1'],
  ['1', '1', '1', '1', '1', '1', '1', '1', '1', '1', '1', '1', '1', '1', '1', '1', '1', '1', '1', '1', '1', '1', '1']]

/-- `Maze.is_wall`.  The Python body is
`not (0 <= r < len(layout_str) and 0 <= c < len(layout_str[0]) and layout_str[r][c] != '1')`;
when the bounds test passes but row `r` is shorter than row 0 the indexing
`layout_str[r][c]` raises `IndexError`, modelled here as `none`. -/
def is_wall (grid_pos : Int × Int) : Option Bool :=
  let r := grid_pos.2
  let c := grid_pos.1
  if 0 ≤ r ∧ r < (LAYOUT.length : Int) ∧ 0 ≤ c ∧ c < ((LAYOUT.headD []).length : Int) then
    let row := LAYOUT.getD r.toNat []
    if h : c.toNat < row.length then some (row.get ⟨c.toNat, h⟩ == '1') else none
  else some true

/-- The total view of `Maze.is_wall` a collaborator sees at the cells where
the lookup does not raise; theorems instantiated with it state the needed
`is_wall … = some …` facts alongside. -/
def maze_wall (grid_pos : Int × Int) : Bool := (is_wall grid_pos).getD true

/-- `Maze.grid_to_world`. -/
def grid_to_world (grid_pos : Int × Int) : Vector2 :=
  ⟨MAZE_OFFSET_X + grid_pos.1 * CELL_SIZE + CELL_SIZE / 2,
   MAZE_OFFSET_Y + grid_pos.2 * CELL_SIZE + CELL_SIZE / 2⟩

/-- `Maze.world_to_grid`. -/
def world_to_grid (world_pos : Vector2) : Int × Int :=
  (pyInt ((world_pos.x - MAZE_OFFSET_X) / CELL_SIZE),
   pyInt ((world_pos.y - MAZE_OFFSET_Y) / CELL_SIZE))

/-- `Entity.get_grid_pos`; its body repeats the `Maze.world_to_grid` formula. -/
def get_grid_pos (pos : Vector2) : Int × Int :=
  (pyInt ((pos.x - MAZE_OFFSET_X) / CELL_SIZE),
   pyInt ((pos.y - MAZE_OFFSET_Y) / CELL_SIZE))

/-- `Entity.is_centered`. -/
def is_centered (pos : Vector2) : Bool :=
  decide (|pyMod (pos.x - MAZE_OFFSET_X) CELL_SIZE - CELL_SIZE / 2| < 3) &&
  decide (|pyMod (pos.y - MAZE_OFFSET_Y) CELL_SIZE - CELL_SIZE / 2| < 3)

theorem pyInt_of_nonneg {q : ℚ} (h : 0 ≤ q) : pyInt q = ⌊q⌋ := if_pos h

theorem floor_add_half (c : Int) : ⌊(c : ℚ) + 1 / 2⌋ = c := by
  rw [add_comm, Int.floor_add_int]
  norm_num

theorem world_to_grid_center (c r : Int) (hc : 0 ≤ c) (hr : 0 ≤ r) :
    world_to_grid (grid_to_world (c, r)) = (c, r) := by
  have hx : ((grid_to_world (c, r)).x - MAZE_OFFSET_X) / CELL_SIZE = (c : ℚ) + 1 / 2 := by
    simp only [grid_to_world, MAZE_OFFSET_X, CELL_SIZE]
    ring
  have hy : ((grid_to_world (c, r)).y - MAZE_OFFSET_Y) / CELL_SIZE = (r : ℚ) + 1 / 2 := by
    simp only [grid_to_world, MAZE_OFFSET_Y, CELL_SIZE]
    ring
  have hcq : (0 : ℚ) ≤ (c : ℚ) + 1 / 2 := by
    have : (0 : ℚ) ≤ (c : ℚ) := by exact_mod_cast hc
    linarith
  have hrq : (0 : ℚ) ≤ (r : ℚ) + 1 / 2 := by
    have : (0 : ℚ) ≤ (r : ℚ) := by exact_mod_cast hr
    linarith
  unfold world_to_grid
  rw [hx, hy, pyInt_of_nonneg hcq, pyInt_of_nonneg hrq, floor_add_half, floor_add_half]

theorem get_grid_pos_eq_world_to_grid : get_grid_pos = world_to_grid := rfl

theorem get_grid_pos_center (c r : Int) (hc : 0 ≤ c) (hr : 0 ≤ r) :
    get_grid_pos (grid_to_world (c, r)) = (c, r) := by
  rw [get_grid_pos_eq_world_to_grid]
  exact world_to_grid_center c r hc hr

theorem pyMod_center (c : Int) :
    pyMod ((c : ℚ) * CELL_SIZE + CELL_SIZE / 2) CELL_SIZE = 16 := by
  unfold pyMod CELL_SIZE
  have h : ((c : ℚ) * 32 + 32 / 2) / 32 = (c : ℚ) + 1 / 2 := by ring
  rw [h, floor_add_half]
  ring

theorem is_centered_center (c r : Int) : is_centered (grid_to_world (c, r)) = true := by
  unfold is_centered grid_to_world
  have hx : MAZE_OFFSET_X + (c : ℚ) * CELL_SIZE + CELL_SIZE / 2 - MAZE_OFFSET_X
      = (c : ℚ) * CELL_SIZE + CELL_SIZE / 2 := by ring
  have hy : MAZE_OFFSET_Y + (r : ℚ) * CELL_SIZE + CELL_SIZE / 2 - MAZE_OFFSET_Y
      = (r : ℚ) * CELL_SIZE + CELL_SIZE / 2 := by ring
  simp only [hx, hy, pyMod_center]
  norm_num [CELL_SIZE]

/-- A `Pellet`.  The `animation_timer` field is omitted: it is randomly
seeded and read only by `Pellet.draw`, which renders to the excluded
presentation surface. -/
structure Pellet where
  position : Vector2
  is_power : Bool
  points : Int
  eaten : Bool
deriving DecidableEq

/-- `Pellet.__init__`: `points = 50 if is_power else 10`, `eaten = False`. -/
def Pellet.init (pos : Vector2) (is_power : Bool) : Pellet :=
  ⟨pos, is_power, if is_power then 50 else 10, false⟩

/-- The collision test of `check_pellet_collision`:
`player.position.distance_to(pellet.position) < Settings.CELL_SIZE / 2`,
stated on squares (both sides are non-negative). -/
def pellet_hit (player_pos : Vector2) (p : Pellet) : Bool :=
  decide (Vector2.distSq player_pos p.position < (CELL_SIZE / 2) * (CELL_SIZE / 2))

/-- `Maze.check_pellet_collision`: the loop over `self.pellets`, returning
the `(score, power_pellet_eaten)` pair together with the updated pellet
list (the loop mutates `pellet.eaten` in place).  The particle emission in
the loop body only touches the particle system and is tracked separately
by the scene model. -/
def check_pellet_collision (player_pos : Vector2) :
    List Pellet → Int × Bool × List Pellet
  | [] => (0, false, [])
  | p :: rest =>
    if !p.eaten && pellet_hit player_pos p then
      let out := check_pellet_collision player_pos rest
      (p.points + out.1, p.is_power || out.2.1, { p with eaten := true } :: out.2.2)
    else
      let out := check_pellet_collision player_pos rest
      (out.1, out.2.1, p :: out.2.2)

/-- A particle record: `[pos, vel, lifetime, lifetime, color]` as built by
`ParticleSystem.emit`. -/
structure Particle where
  pos : Vector2
  vel : Vector2
  lifetime : ℚ
  max_lifetime : ℚ
  color : Nat × Nat × Nat
deriving DecidableEq

/-- The per-particle loop body of `ParticleSystem.update`: integrate the
position, apply gravity to the velocity, age the particle. -/
def Particle.step (dt : ℚ) (p : Particle) : Particle :=
  { p with
    pos := p.pos + p.vel.smul dt,
    vel := ⟨p.vel.x, p.vel.y + 100 * dt⟩,
    lifetime := p.lifetime - dt }

/-- `ParticleSystem.update`: after the mutation loop, the list is rebuilt
keeping the particles with `p[2] > 0`. -/
def particles_update (dt : ℚ) (particles : List Particle) : List Particle :=
  (particles.map (Particle.step dt)).filter fun p => decide (0 < p.lifetime)

/-- The random draws consumed for one emitted particle: the cosine and sine
of the sampled angle, and the unit samples for the two `random.uniform`
calls on the speed and lifetime ranges. -/
structure EmitDraw where
  cosA : ℚ
  sinA : ℚ
  uSpeed : ℚ
  uLife : ℚ

/-- `random.uniform(a, b)` is `a + (b - a) * u` for a unit sample `u`. -/
def uniform (a b u : ℚ) : ℚ := a + (b - a) * u

/-- `ParticleSystem.emit`: appends one particle per draw (`count` is the
length of the draw list). -/
def particles_emit (pos : Vector2) (color : Nat × Nat × Nat)
    (speed_range lifetime_range : ℚ × ℚ) (draws : List EmitDraw)
    (particles : List Particle) : List Particle :=
  particles ++ draws.map fun d =>
    let speed := uniform speed_range.1 speed_range.2 d.uSpeed
    let lifetime := uniform lifetime_range.1 lifetime_range.2 d.uLife
    ⟨pos, ⟨d.cosA * speed, d.sinA * speed⟩, lifetime, lifetime, color⟩

/-- The mutable state of a `Player` (an `Entity` plus the player fields). -/
structure PlayerState where
  position : Vector2
  start_pos : Vector2
  velocity : Vector2
  direction : Direction
  speed : ℚ
  next_direction : Direction
  lives : Int
  is_invulnerable : Bool
  invulnerable_timer : ℚ
  mouth_angle : ℚ
  is_mouth_opening : Bool
deriving DecidableEq

/-- `Player.__init__(pos)`. -/
def Player.init (pos : Vector2) : PlayerState :=
  { position := pos
    start_pos := pos
    velocity := ⟨0, 0⟩
    direction := .LEFT
    speed := PLAYER_SPEED
    next_direction := .LEFT
    lives := 3
    is_invulnerable := false
    invulnerable_timer := 0
    mouth_angle := 0
    is_mouth_opening := true }

/-- `Player._move`, parametrized over the maze collaborator: `wall cell` is
the value the `maze.is_wall(cell)` call returns. -/
def Player.move (wall : Int × Int → Bool) (dt : ℚ) (s : PlayerState) : PlayerState :=
  let s :=
    if is_centered s.position then
      let cr := get_grid_pos s.position
      let nd := s.next_direction.value
      if !wall (cr.1 + nd.1, cr.2 + nd.2) then { s with direction := s.next_direction } else s
    else s
  let cr := get_grid_pos s.position
  let d := s.direction.value
  let velocity : Vector2 :=
    if wall (cr.1 + d.1, cr.2 + d.2) && is_centered s.position then ⟨0, 0⟩
    else ⟨(d.1 : ℚ) * s.speed, (d.2 : ℚ) * s.speed⟩
  { s with velocity := velocity, position := s.position + velocity.smul dt }

/-- The mutable state of a `Ghost` (an `Entity` plus color and name). -/
structure GhostState where
  position : Vector2
  start_pos : Vector2
  velocity : Vector2
  direction : Direction
  speed : ℚ
  color : Nat × Nat × Nat
  name : String
deriving DecidableEq

/-- `Ghost.__init__(pos, color, name)`. -/
def Ghost.init (pos : Vector2) (color : Nat × Nat × Nat) (name : String) : GhostState :=
  { position := pos
    start_pos := pos
    velocity := ⟨0, 0⟩
    direction := .UP
    speed := GHOST_SPEED
    color := color
    name := name }

/-- The `possible_dirs` list built by `Ghost.update`: the four moves in the
order the loop visits them, kept when the neighbouring cell is not a wall. -/
def possible_dirs (wall : Int × Int → Bool) (c r : Int) : List Direction :=
  [Direction.UP, Direction.DOWN, Direction.LEFT, Direction.RIGHT].filter fun d =>
    !wall (c + d.value.1, r + d.value.2)

/-- The candidate list `Ghost.update` passes to `random.choice` after the
no-backtrack pruning.  The `none` arm of the enum lookup is unreachable
(`Direction.valueOf_neg`), so it returns the list unchanged. -/
def ghost_candidates (wall : Int × Int → Bool) (c r : Int) (dir : Direction) :
    List Direction :=
  if dir ∈ possible_dirs wall c r ∧ 1 < (possible_dirs wall c r).length then
    match Direction.valueOf (-dir.value.1, -dir.value.2) with
    | some rev_dir =>
      if rev_dir ∈ possible_dirs wall c r then (possible_dirs wall c r).erase rev_dir
      else possible_dirs wall c r
    | none => possible_dirs wall c r
  else possible_dirs wall c r

/-- The direction-selection block of `Ghost.update` at a cell center;
`random.choice` is modelled by an arbitrary index `pick` into the candidate
list.  When the candidate list is empty the direction is left unchanged. -/
def ghost_choose (wall : Int × Int → Bool) (c r : Int) (dir : Direction) (pick : Nat) :
    Direction :=
  if ghost_candidates wall c r dir = [] then dir
  else (ghost_candidates wall c r dir).getD
    (pick % (ghost_candidates wall c r dir).length) dir

/-- `Ghost.update`, parametrized over the maze collaborator and the
`random.choice` index. -/
def Ghost.update (wall : Int × Int → Bool) (pick : Nat) (dt : ℚ) (g : GhostState) :
    GhostState :=
  let g :=
    if is_centered g.position then
      let cr := get_grid_pos g.position
      { g with direction := ghost_choose wall cr.1 cr.2 g.direction pick }
    else g
  let d := g.direction.value
  let velocity : Vector2 := ⟨(d.1 : ℚ) * g.speed, (d.2 : ℚ) * g.speed⟩
  { g with velocity := velocity, position := g.position + velocity.smul dt }

/-- The state of a `SoundManager`: the names registered in the `sounds`
dict (the synthesized buffers themselves live on the audio device side)
and the `enabled` flag. -/
structure SoundManagerState where
  sound_names : List String
  enabled : Bool
deriving DecidableEq

/-- `SoundManager.play`: the method assigns no attribute; its only effect
is the `Sound.play(loops)` call on the audio device, returned here as the
list of issued play commands, together with the (unchanged) manager
state. -/
def SoundManager.play (s : SoundManagerState) (sound_name : String) (loops : Int) :
    SoundManagerState × List (String × Int) :=
  if s.enabled && s.sound_names.contains sound_name then (s, [(sound_name, loops)])
  else (s, [])

/-- The fixed ghost-identity cycle of `Maze._parse_layout`. -/
def ghost_name_cycle : List String := ["blinky", "pinky", "inky", "clyde"]

/-- The accumulator threaded through the `Maze._parse_layout` loops. -/
structure ParseAcc where
  pellets : List Pellet
  player_start_pos : Option Vector2
  ghost_start_positions : List (String × Vector2)
  ghost_spawn_index : Nat
deriving DecidableEq

/-- The `Maze._parse_layout` loop body for the character at row `r`,
column `c`.  Characters other than `.`, `P`, `S`, `G` leave the
accumulator unchanged. -/
def parse_char (r c : Nat) (ch : Char) (acc : ParseAcc) : ParseAcc :=
  let pos : Vector2 :=
    ⟨MAZE_OFFSET_X + (c : ℚ) * CELL_SIZE + CELL_SIZE / 2,
     MAZE_OFFSET_Y + (r : ℚ) * CELL_SIZE + CELL_SIZE / 2⟩
  if ch == '.' then { acc with pellets := acc.pellets ++ [Pellet.init pos false] }
  else if ch == 'P' then { acc with pellets := acc.pellets ++ [Pellet.init pos true] }
  else if ch == 'S' then { acc with player_start_pos := some pos }
  else if ch == 'G' then
    { acc with
      ghost_start_positions := acc.ghost_start_positions ++
        [(ghost_name_cycle.getD (acc.ghost_spawn_index % 4) "", pos)],
      ghost_spawn_index := acc.ghost_spawn_index + 1 }
  else acc

/-- One row of the `Maze._parse_layout` scan. -/
def parse_row (r : Nat) (row : List Char) (acc : ParseAcc) : ParseAcc :=
  row.enum.foldl (fun a cch => parse_char r cch.1 cch.2 a) acc

/-- The full `Maze._parse_layout` scan over `LAYOUT`. -/
def parse_layout : ParseAcc :=
  LAYOUT.enum.foldl (fun acc rrow => parse_row rrow.1 rrow.2 acc) ⟨[], none, [], 0⟩

/-- A `Maze` after `__init__` (the pre-rendered background surface is
presentation-only and omitted).  `player_start_pos` is never `None` here
because `_parse_layout` substitutes the hard-coded fallback cell. -/
structure MazeState where
  pellets : List Pellet
  player_start_pos : Vector2
  ghost_start_positions : List (String × Vector2)
  ghost_house_exit : Vector2
deriving DecidableEq

/-- `Maze.__init__` (parse plus the fallback spawn and house exit set at
the end of `_parse_layout`). -/
def Maze.init : MazeState :=
  let acc := parse_layout
  { pellets := acc.pellets
    player_start_pos :=
      match acc.player_start_pos with
      | some p => p
      | none => grid_to_world (11, 16)
    ghost_start_positions := acc.ghost_start_positions
    ghost_house_exit := grid_to_world (11, 8) }

/-- A `GameScene` after `__init__` (the back-reference to the engine is a
collaborator handle, not state). -/
structure GameSceneState where
  particles : List Particle
  maze : MazeState
  player : PlayerState
  ghosts : List GhostState
  score : Int
  is_power_pellet_active : Bool
  power_pellet_timer : ℚ
deriving DecidableEq

/-- `GameScene.__init__`: a brand-new maze, player, ghost list and score. -/
def GameScene.init : GameSceneState :=
  let maze := Maze.init
  { particles := []
    maze := maze
    player := Player.init maze.player_start_pos
    ghosts := maze.ghost_start_positions.map fun np => Ghost.init np.2 COLOR_RED np.1
    score := 0
    is_power_pellet_active := false
    power_pellet_timer := 0 }

/-- The `GameState` enum. -/
inductive GameState
  | MAIN_MENU
  | PLAYING
  | PAUSED
  | GAME_OVER
  | LEVEL_TRANSITION
deriving DecidableEq

/-- A scene held in the engine's registry.  The main-menu scene's state is
its selected option index. -/
inductive SceneState
  | menu (selected_option : Nat)
  | playing (scene : GameSceneState)
deriving DecidableEq

/-- The engine state relevant to scene management: the `scenes` registry,
the current state tag and the current scene. -/
structure EngineState where
  scenes : GameState → Option SceneState
  current_state : GameState
  current_scene : Option SceneState

/-- `GameEngine.__init__` followed by `_init_scenes`: registers the main
menu and one fresh playing scene, and selects the main menu. -/
def GameEngine.init : EngineState :=
  let scenes : GameState → Option SceneState := fun st =>
    match st with
    | .MAIN_MENU => some (.menu 0)
    | .PLAYING => some (.playing GameScene.init)
    | _ => none
  { scenes := scenes
    current_state := .MAIN_MENU
    current_scene := scenes .MAIN_MENU }

/-- `GameEngine.change_state`: when the target state is registered
(`new_state in self.scenes`), re-initializes the playing scene if the
target is `PLAYING` and then switches; an unregistered target is logged
and ignored. -/
def change_state (new_state : GameState) (e : EngineState) : EngineState :=
  if (e.scenes new_state).isSome then
    let scenes : GameState → Option SceneState :=
      if new_state = .PLAYING then
        fun st => if st = .PLAYING then some (.playing GameScene.init) else e.scenes st
      else e.scenes
    { scenes := scenes, current_state := new_state, current_scene := scenes new_state }
  else e

@[simp] theorem Particle.step_lifetime (dt : ℚ) (p : Particle) :
    (Particle.step dt p).lifetime = p.lifetime - dt := rfl

@[simp] theorem Particle.step_max_lifetime (dt : ℚ) (p : Particle) :
    (Particle.step dt p).max_lifetime = p.max_lifetime := rfl

@[simp] theorem Particle.step_color (dt : ℚ) (p : Particle) :
    (Particle.step dt p).color = p.color := rfl

theorem particles_update_filterMap (dt : ℚ) (ps : List Particle) :
    particles_update dt ps = ps.filterMap fun p =>
      if 0 < p.lifetime - dt then some (Particle.step dt p) else none := by
  induction ps with
  | nil => rfl
  | cons p rest ih =>
    simp only [particles_update, List.map_cons, List.filter_cons, List.filterMap_cons] at *
    by_cases h : 0 < p.lifetime - dt <;> simp [h, ih]

/-- C5: for positive `dt`, `ParticleSystem.update` keeps exactly the
particles whose remaining lifetime after subtracting `dt` is still
positive (a particle that reaches `≤ 0` this call is removed in the same
call); every survivor is the stepped image of an input particle with
strictly smaller remaining lifetime and unchanged maximum lifetime and
color; and the spec scenario — `emit` with `speed_range = (0, 0)` and
`lifetime_range = (1, 1)` into an empty system followed by `update(1)` —
leaves the particle collection empty, whatever the random draws were. -/
theorem C5_particle_update_exact_removal (dt : ℚ) (ps : List Particle) (hdt : 0 < dt) :
    (particles_update dt ps = ps.filterMap fun p =>
        if 0 < p.lifetime - dt then some (Particle.step dt p) else none) ∧
    (∀ q ∈ particles_update dt ps, ∃ p ∈ ps,
        q = Particle.step dt p ∧ q.lifetime < p.lifetime ∧
        q.max_lifetime = p.max_lifetime ∧ q.color = p.color) ∧
    ∀ (origin : Vector2) (color : Nat × Nat × Nat) (draws : List EmitDraw),
      particles_update 1 (particles_emit origin color (0, 0) (1, 1) draws []) = [] := by
  refine ⟨particles_update_filterMap dt ps, ?_, ?_⟩
  · intro q hq
    simp only [particles_update, List.mem_filter, List.mem_map] at hq
    obtain ⟨⟨p, hp, rfl⟩, hpos⟩ := hq
    refine ⟨p, hp, rfl, ?_, rfl, rfl⟩
    simp only [Particle.step_lifetime]
    linarith
  · intro origin color draws
    simp only [particles_update, particles_emit, List.nil_append]
    rw [List.filter_eq_nil_iff]
    intro q hq
    rw [List.mem_map] at hq
    obtain ⟨q', hq', rfl⟩ := hq
    rw [List.mem_map] at hq'
    obtain ⟨d, hd, rfl⟩ := hq'
    simp [Particle.step, uniform]

theorem C5_particle_update_exact_removal_witness :
    particles_update 1 (particles_emit ⟨0, 0⟩ COLOR_YELLOW (0, 0) (1, 1)
      [⟨1, 0, 0, 0⟩, ⟨1, 0, 0, 0⟩, ⟨1, 0, 0, 0⟩, ⟨1, 0, 0, 0⟩, ⟨1, 0, 0, 0⟩] []) = [] :=
  (C5_particle_update_exact_removal 1 [] (by norm_num)).2.2 ⟨0, 0⟩ COLOR_YELLOW
    [⟨1, 0, 0, 0⟩, ⟨1, 0, 0, 0⟩, ⟨1, 0, 0, 0⟩, ⟨1, 0, 0, 0⟩, ⟨1, 0, 0, 0⟩]

theorem check_pellet_collision_of_no_hit (pos : Vector2) (ps : List Pellet)
    (h : ∀ p ∈ ps, (!p.eaten && pellet_hit pos p) = false) :
    check_pellet_collision pos ps = (0, false, ps) := by
  induction ps with
  | nil => rfl
  | cons p rest ih =>
    have hp := h p (List.mem_cons_self p rest)
    have hrest := ih fun q hq => h q (List.mem_cons_of_mem p hq)
    simp [check_pellet_collision, hp, hrest]

theorem check_pellet_collision_post (pos : Vector2) (ps : List Pellet) :
    ∀ p ∈ (check_pellet_collision pos ps).2.2, (!p.eaten && pellet_hit pos p) = false := by
  induction ps with
  | nil => intro p hp; simp [check_pellet_collision] at hp
  | cons p rest ih =>
    intro q hq
    by_cases hp : (!p.eaten && pellet_hit pos p) = true
    · simp only [check_pellet_collision, hp, if_pos] at hq
      rcases List.mem_cons.mp hq with rfl | hq
      · simp
      · exact ih q hq
    · simp only [check_pellet_collision, hp, if_neg, Bool.not_eq_true] at hq
      rcases List.mem_cons.mp hq with rfl | hq
      · exact eq_false_of_ne_true hp
      · exact ih q hq

/-- C4: `check_pellet_collision` skips a pellet whose `eaten` flag is
already set — it adds no points, cannot set the power flag, and is passed
through unchanged — and consequently a second pass from the same player
position over the updated pellet list returns score `0` and power flag
`False` and changes no pellet. -/
theorem C4_pellet_collision_idempotent (pos : Vector2) (pellets : List Pellet) :
    (∀ (p : Pellet) (rest : List Pellet), p.eaten = true →
        check_pellet_collision pos (p :: rest)
          = ((check_pellet_collision pos rest).1,
             (check_pellet_collision pos rest).2.1,
             p :: (check_pellet_collision pos rest).2.2)) ∧
    check_pellet_collision pos (check_pellet_collision pos pellets).2.2
      = (0, false, (check_pellet_collision pos pellets).2.2) := by
  constructor
  · intro p rest hp
    simp [check_pellet_collision, hp]
  · exact check_pellet_collision_of_no_hit pos _ (check_pellet_collision_post pos pellets)

theorem C4_pellet_collision_idempotent_witness :
    check_pellet_collision ⟨64, 136⟩ [⟨⟨64, 136⟩, false, 10, true⟩]
        = (0, false, [⟨⟨64, 136⟩, false, 10, true⟩]) ∧
    check_pellet_collision ⟨64, 136⟩
        (check_pellet_collision ⟨64, 136⟩ [Pellet.init ⟨64, 136⟩ false]).2.2
      = (0, false, (check_pellet_collision ⟨64, 136⟩ [Pellet.init ⟨64, 136⟩ false]).2.2) := by
  constructor
  · exact (C4_pellet_collision_idempotent ⟨64, 136⟩ []).1 ⟨⟨64, 136⟩, false, 10, true⟩ [] rfl
  · exact (C4_pellet_collision_idempotent ⟨64, 136⟩ [Pellet.init ⟨64, 136⟩ false]).2

/-- C9: `SoundManager.play` is a no-op whenever audio is disabled or the
requested name is not a registered effect: it issues no play command to
the audio device and leaves the manager state unchanged (the embedding is
total, so no exception path exists). -/
theorem C9_sound_play_noop (s : SoundManagerState) (sound_name : String) (loops : Int)
    (h : s.enabled = false ∨ s.sound_names.contains sound_name = false) :
    SoundManager.play s sound_name loops = (s, []) := by
  unfold SoundManager.play
  rcases h with h | h <;> rw [h] <;> simp

theorem C9_sound_play_noop_witness :
    SoundManager.play ⟨["intro", "eat_pellet", "eat_power_pellet", "eat_ghost",
      "death", "menu_select"], false⟩ "death" 0
      = (⟨["intro", "eat_pellet", "eat_power_pellet", "eat_ghost",
          "death", "menu_select"], false⟩, []) :=
  C9_sound_play_noop _ "death" 0 (Or.inl rfl)

/-- C1: for every grid cell outside the maze bounds the Python bounds test
uses — row index within the row count, column index within row 0's length
— `is_wall` returns `true`; but `is_wall` is not exception-free: at cell
`(21, 7)` the bounds test passes (row 7 exists and 21 < 23, the length of
row 0) while row 7 itself has only 21 characters, so `layout_str[7][21]`
raises `IndexError` (modelled as `none`). -/
theorem C1_is_wall_fail_closed_but_raises :
    (∀ c r : Int,
        (r < 0 ∨ (LAYOUT.length : Int) ≤ r ∨ c < 0 ∨ ((LAYOUT.headD []).length : Int) ≤ c) →
        is_wall (c, r) = some true) ∧
    is_wall (21, 7) = none := by
  constructor
  · intro c r h
    have hL : (LAYOUT.length : Int) = 22 := rfl
    have hW : ((LAYOUT.headD []).length : Int) = 23 := rfl
    rw [hL, hW] at h
    simp only [is_wall]
    rw [if_neg]
    rw [hL, hW]
    omega
  · decide

theorem C1_is_wall_fail_closed_but_raises_witness :
    is_wall (-1, 5) = some true ∧ is_wall (23, 5) = some true ∧ is_wall (21, 7) = none :=
  ⟨C1_is_wall_fail_closed_but_raises.1 (-1) 5 (by decide),
   C1_is_wall_fail_closed_but_raises.1 23 5 (by decide),
   C1_is_wall_fail_closed_but_raises.2⟩

theorem possible_dirs_nodup (wall : Int × Int → Bool) (c r : Int) :
    (possible_dirs wall c r).Nodup :=
  List.Nodup.filter _ (by decide)

theorem possible_dirs_ne_none (wall : Int × Int → Bool) (c r : Int)
    (d : Direction) (hd : d ∈ possible_dirs wall c r) : d ≠ .NONE := by
  intro hnone
  subst hnone
  have h := (List.mem_filter.mp hd).1
  simp at h

theorem ghost_candidates_subset (wall : Int × Int → Bool) (c r : Int) (dir : Direction) :
    ghost_candidates wall c r dir ⊆ possible_dirs wall c r := by
  unfold ghost_candidates
  split_ifs with h
  · rw [Direction.valueOf_neg]
    show (if dir.rev ∈ possible_dirs wall c r then (possible_dirs wall c r).erase dir.rev
          else possible_dirs wall c r) ⊆ possible_dirs wall c r
    split_ifs with h2
    · exact List.erase_subset _ _
    · exact fun _ hx => hx
  · exact fun _ hx => hx

theorem ghost_choose_mem (wall : Int × Int → Bool) (c r : Int) (dir : Direction)
    (pick : Nat) (hne : ghost_candidates wall c r dir ≠ []) :
    ghost_choose wall c r dir pick ∈ ghost_candidates wall c r dir := by
  unfold ghost_choose
  rw [if_neg hne]
  have hlen : 0 < (ghost_candidates wall c r dir).length := List.length_pos.mpr hne
  rw [List.getD_eq_getElem _ _ (Nat.mod_lt _ hlen)]
  exact List.getElem_mem _

/-- C2 amended: when a centered ghost picks a new direction, the reverse
of its current heading is excluded from the candidate set provided the
current heading is itself one of the non-wall candidate directions (and at
least one alternative exists); the new direction is then drawn from the
pruned candidate list.  Without that proviso the reverse survives — see
the counterexample. -/
theorem C2_ghost_no_backtrack_amended (wall : Int × Int → Bool) (c r : Int)
    (dir : Direction)
    (h1 : dir ∈ possible_dirs wall c r)
    (h2 : 1 < (possible_dirs wall c r).length) :
    dir.rev ∉ ghost_candidates wall c r dir ∧
    ∀ pick : Nat, ghost_choose wall c r dir pick ∈ ghost_candidates wall c r dir := by
  have hnodup := possible_dirs_nodup wall c r
  have hcands : ghost_candidates wall c r dir
      = if dir.rev ∈ possible_dirs wall c r
        then (possible_dirs wall c r).erase dir.rev
        else possible_dirs wall c r := by
    unfold ghost_candidates
    rw [if_pos ⟨h1, h2⟩, Direction.valueOf_neg]
  constructor
  · rw [hcands]
    split_ifs with hrev
    · intro hmem
      exact absurd ((List.Nodup.mem_erase_iff hnodup).mp hmem).1 (by simp)
    · exact hrev
  · intro pick
    apply ghost_choose_mem
    rw [hcands]
    split_ifs with hrev
    · intro hnil
      have := List.length_erase_of_mem hrev
      rw [hnil] at this
      simp at this
      omega
    · intro hnil
      rw [hnil] at h2
      simp at h2

theorem C2_ghost_no_backtrack_amended_witness :
    Direction.LEFT.rev ∉ ghost_candidates maze_wall 2 1 .LEFT ∧
    ghost_choose maze_wall 2 1 .LEFT 0 ∈ ghost_candidates maze_wall 2 1 .LEFT :=
  ⟨(C2_ghost_no_backtrack_amended maze_wall 2 1 .LEFT (by decide) (by decide)).1,
   (C2_ghost_no_backtrack_amended maze_wall 2 1 .LEFT (by decide) (by decide)).2 0⟩

/-- C2 counterexample: a ghost centered at cell `(1, 1)` heading `UP` (its
spawn heading) faces a wall, so its current heading is not a candidate;
the four neighbour lookups are in bounds (walls above and left, open cells
below and right), there are two non-wall candidate directions and one of
them is the reverse `DOWN` of the heading — yet the pruning is skipped:
the reverse stays in the candidate list and `Ghost.update` can choose it
(here with `random.choice` index 0). -/
theorem C2_ghost_reverse_not_excluded_cex :
    is_wall (1, 0) = some true ∧
    is_wall (1, 2) = some false ∧
    is_wall (0, 1) = some true ∧
    is_wall (2, 1) = some false ∧
    possible_dirs maze_wall 1 1 = [.DOWN, .RIGHT] ∧
    Direction.UP.rev = .DOWN ∧
    ghost_candidates maze_wall 1 1 .UP = [.DOWN, .RIGHT] ∧
    (Ghost.update maze_wall 0 1
        (Ghost.init (grid_to_world (1, 1)) COLOR_RED "blinky")).direction = .DOWN := by
  refine ⟨by decide, by decide, by decide, by decide, by decide, rfl, by decide, ?_⟩
  unfold Ghost.update
  have hpos : (Ghost.init (grid_to_world (1, 1)) COLOR_RED "blinky").position
      = grid_to_world (1, 1) := rfl
  rw [hpos, is_centered_center, if_pos rfl, get_grid_pos_center 1 1 (by norm_num) (by norm_num)]
  show ghost_choose maze_wall 1 1 Direction.UP 0 = Direction.DOWN
  decide

/-- C10: after any `Ghost.update` the ghost's velocity is exactly its
(post-update) direction's unit vector times its speed, its position has
advanced by `velocity × dt`, and its speed is unchanged — there is no
wall-stop branch.  A ghost that is not centered (or is centered with no
non-wall neighbour) keeps its direction, and whenever its direction is a
real heading and its speed is positive its velocity is non-zero, so it
keeps moving even when the cell ahead is a wall. -/
theorem C10_ghost_never_wall_stopped (wall : Int × Int → Bool) (pick : Nat) (dt : ℚ)
    (g : GhostState) :
    ((Ghost.update wall pick dt g).velocity
        = ⟨((Ghost.update wall pick dt g).direction.value.1 : ℚ) * g.speed,
           ((Ghost.update wall pick dt g).direction.value.2 : ℚ) * g.speed⟩) ∧
    ((Ghost.update wall pick dt g).position
        = g.position + (Ghost.update wall pick dt g).velocity.smul dt) ∧
    ((Ghost.update wall pick dt g).speed = g.speed) ∧
    (is_centered g.position = false → (Ghost.update wall pick dt g).direction = g.direction) ∧
    (is_centered g.position = true →
        possible_dirs wall (get_grid_pos g.position).1 (get_grid_pos g.position).2 = [] →
        (Ghost.update wall pick dt g).direction = g.direction) ∧
    (g.direction ≠ .NONE → 0 < g.speed →
        (Ghost.update wall pick dt g).velocity ≠ ⟨0, 0⟩) := by
  have hdir : (Ghost.update wall pick dt g).direction
      = if is_centered g.position
        then ghost_choose wall (get_grid_pos g.position).1 (get_grid_pos g.position).2
               g.direction pick
        else g.direction := by
    unfold Ghost.update
    split_ifs with hc <;> simp [hc]
  have hvel : (Ghost.update wall pick dt g).velocity
      = ⟨((Ghost.update wall pick dt g).direction.value.1 : ℚ) * g.speed,
         ((Ghost.update wall pick dt g).direction.value.2 : ℚ) * g.speed⟩ := by
    unfold Ghost.update
    split_ifs with hc <;> simp
  have hne : (Ghost.update wall pick dt g).direction ≠ .NONE → g.direction ≠ .NONE →
      True := fun _ _ => trivial
  refine ⟨hvel, ?_, ?_, ?_, ?_, ?_⟩
  · unfold Ghost.update
    split_ifs with hc <;> simp
  · unfold Ghost.update
    split_ifs with hc <;> simp
  · intro hc
    rw [hdir, hc]
    simp
  · intro hc hempty
    rw [hdir, hc, if_pos rfl]
    have hcand : ghost_candidates wall (get_grid_pos g.position).1
        (get_grid_pos g.position).2 g.direction = [] := by
      unfold ghost_candidates
      rw [hempty]
      simp
    unfold ghost_choose
    rw [if_pos hcand]
  · intro hd hs
    have hdir_ne : (Ghost.update wall pick dt g).direction ≠ .NONE := by
      rw [hdir]
      split_ifs with hc
      · by_cases hemp : ghost_candidates wall (get_grid_pos g.position).1
            (get_grid_pos g.position).2 g.direction = []
        · unfold ghost_choose
          rw [if_pos hemp]
          exact hd
        · have hmem := ghost_choose_mem wall _ _ g.direction pick hemp
          exact possible_dirs_ne_none wall _ _ _ (ghost_candidates_subset wall _ _ _ hmem)
      · exact hd
    rw [hvel]
    intro hcon
    cases hval : (Ghost.update wall pick dt g).direction
    case NONE => exact hdir_ne hval
    all_goals
      rw [hval] at hcon
      simp only [Direction.value, Vector2.mk.injEq] at hcon
      push_cast at hcon
      rcases hcon with ⟨h1, h2⟩
      linarith

theorem C10_ghost_never_wall_stopped_witness :
    (Ghost.update maze_wall 0 1
        (Ghost.init (grid_to_world (1, 1)) COLOR_RED "blinky")).velocity ≠ ⟨0, 0⟩ :=
  (C10_ghost_never_wall_stopped maze_wall 0 1
      (Ghost.init (grid_to_world (1, 1)) COLOR_RED "blinky")).2.2.2.2.2
    (by decide) (by norm_num [Ghost.init, GHOST_SPEED])

/-- C3 counterexample: `int()` truncates toward zero, so for the cell
`(-1, 0)` the roundtrip returns column `0`, not `-1`:
`grid_to_world((-1, 0)) = (32, 136)` and `world_to_grid((32, 136))`
computes `int(-0.5) = 0`. -/
theorem C3_grid_roundtrip_cex :
    world_to_grid (grid_to_world (-1, 0)) = (0, 0) ∧
    ((0 : Int), (0 : Int)) ≠ ((-1 : Int), (0 : Int)) := by
  constructor
  · have hx : ((grid_to_world (-1, 0)).x - MAZE_OFFSET_X) / CELL_SIZE = (-1 : ℚ) / 2 := by
      simp only [grid_to_world, MAZE_OFFSET_X, CELL_SIZE]
      norm_num
    have hy : ((grid_to_world (-1, 0)).y - MAZE_OFFSET_Y) / CELL_SIZE = (1 : ℚ) / 2 := by
      simp only [grid_to_world, MAZE_OFFSET_Y, CELL_SIZE]
      norm_num
    unfold world_to_grid
    rw [hx, hy]
    unfold pyInt
    rw [if_neg (by norm_num), if_pos (by norm_num)]
    norm_num
  · decide

/-- C3 amended: `grid_to_world` maps every integer grid cell to the
geometric center of the cell's rectangle (corner `offset + index·cell`,
one cell on each side, as drawn by `_pre_render_maze`), and
`world_to_grid` inverts it on every cell with non-negative column and row
— which covers all cells of the maze; for negative indices the truncation
toward zero of `int()` breaks the inversion. -/
theorem C3_grid_roundtrip_amended (c r : Int) (hc : 0 ≤ c) (hr : 0 ≤ r) :
    (grid_to_world (c, r)).x
        = ((MAZE_OFFSET_X + c * CELL_SIZE) + (MAZE_OFFSET_X + (c + 1) * CELL_SIZE)) / 2 ∧
    (grid_to_world (c, r)).y
        = ((MAZE_OFFSET_Y + r * CELL_SIZE) + (MAZE_OFFSET_Y + (r + 1) * CELL_SIZE)) / 2 ∧
    world_to_grid (grid_to_world (c, r)) = (c, r) := by
  refine ⟨?_, ?_, world_to_grid_center c r hc hr⟩
  · simp only [grid_to_world]
    ring
  · simp only [grid_to_world]
    ring

theorem C3_grid_roundtrip_amended_witness :
    (grid_to_world (11, 16)).x
        = ((MAZE_OFFSET_X + 11 * CELL_SIZE) + (MAZE_OFFSET_X + (11 + 1) * CELL_SIZE)) / 2 ∧
    (grid_to_world (11, 16)).y
        = ((MAZE_OFFSET_Y + 16 * CELL_SIZE) + (MAZE_OFFSET_Y + (16 + 1) * CELL_SIZE)) / 2 ∧
    world_to_grid (grid_to_world (11, 16)) = (11, 16) :=
  C3_grid_roundtrip_amended 11 16 (by norm_num) (by norm_num)

theorem pyMod_int_mul_add (k : Int) (t : ℚ) :
    pyMod ((k : ℚ) * CELL_SIZE + t) CELL_SIZE = pyMod t CELL_SIZE := by
  unfold pyMod CELL_SIZE
  have h : ((k : ℚ) * 32 + t) / 32 = (k : ℚ) + t / 32 := by ring
  rw [h, Int.floor_int_add]
  push_cast
  ring

theorem pyMod_offset_far (t : ℚ) (h1 : 3 < |t|) (h2 : |t| ≤ 29) :
    ¬(|pyMod (16 + t) CELL_SIZE - CELL_SIZE / 2| < 3) := by
  have hrange := abs_le.mp h2
  have hfar : 3 < t ∨ t < -3 := by
    rcases lt_abs.mp h1 with h | h
    · exact Or.inl h
    · exact Or.inr (by linarith)
  unfold pyMod CELL_SIZE
  rcases hfar with hpos | hneg
  · by_cases hmid : t < 16
    · have hf : ⌊(16 + t) / 32⌋ = 0 := by
        rw [Int.floor_eq_iff]
        push_cast
        constructor
        · rw [le_div_iff₀ (by norm_num)]
          linarith
        · rw [div_lt_iff₀ (by norm_num)]
          linarith
      rw [hf]
      rw [not_lt, le_abs]
      left
      push_cast
      linarith
    · have hf : ⌊(16 + t) / 32⌋ = 1 := by
        rw [Int.floor_eq_iff]
        push_cast
        constructor
        · rw [le_div_iff₀ (by norm_num)]
          linarith
        · rw [div_lt_iff₀ (by norm_num)]
          linarith
      rw [hf]
      rw [not_lt, le_abs]
      right
      push_cast
      linarith
  · by_cases hmid : -16 ≤ t
    · have hf : ⌊(16 + t) / 32⌋ = 0 := by
        rw [Int.floor_eq_iff]
        push_cast
        constructor
        · rw [le_div_iff₀ (by norm_num)]
          linarith
        · rw [div_lt_iff₀ (by norm_num)]
          linarith
      rw [hf]
      rw [not_lt, le_abs]
      right
      push_cast
      linarith
    · have hf : ⌊(16 + t) / 32⌋ = -1 := by
        rw [Int.floor_eq_iff]
        push_cast
        constructor
        · rw [le_div_iff₀ (by norm_num)]
          linarith
        · rw [div_lt_iff₀ (by norm_num)]
          linarith
      rw [hf]
      rw [not_lt, le_abs]
      left
      push_cast
      linarith

/-- C6 amended: an entity placed exactly at `grid_to_world(cell)` reports
centered for every integer cell, and offsetting either axis away from the
center by more than the 3-unit tolerance reports not centered provided the
offset stays at most one cell size minus the tolerance (29 units); a
larger offset can wrap onto a neighbouring cell's center — offsetting by
exactly one cell size (32) reports centered again, which is the
counterexample to the unrestricted claim. -/
theorem C6_is_centered_amended (c r : Int) (off : ℚ)
    (h1 : 3 < |off|) (h2 : |off| ≤ 29) :
    is_centered (grid_to_world (c, r)) = true ∧
    is_centered ⟨(grid_to_world (c, r)).x + off, (grid_to_world (c, r)).y⟩ = false ∧
    is_centered ⟨(grid_to_world (c, r)).x, (grid_to_world (c, r)).y + off⟩ = false := by
  refine ⟨is_centered_center c r, ?_, ?_⟩
  · have hx : (grid_to_world (c, r)).x + off - MAZE_OFFSET_X
        = (c : ℚ) * CELL_SIZE + (16 + off) := by
      simp only [grid_to_world, MAZE_OFFSET_X, CELL_SIZE]
      ring
    unfold is_centered
    rw [hx, pyMod_int_mul_add]
    rw [Bool.and_eq_false_iff]
    left
    rw [decide_eq_false_iff_not]
    exact pyMod_offset_far off h1 h2
  · have hy : (grid_to_world (c, r)).y + off - MAZE_OFFSET_Y
        = (r : ℚ) * CELL_SIZE + (16 + off) := by
      simp only [grid_to_world, MAZE_OFFSET_Y, CELL_SIZE]
      ring
    unfold is_centered
    rw [hy, pyMod_int_mul_add]
    rw [Bool.and_eq_false_iff]
    right
    rw [decide_eq_false_iff_not]
    exact pyMod_offset_far off h1 h2

theorem C6_is_centered_amended_witness :
    is_centered (grid_to_world (0, 0)) = true ∧
    is_centered ⟨(grid_to_world (0, 0)).x + 10, (grid_to_world (0, 0)).y⟩ = false ∧
    is_centered ⟨(grid_to_world (0, 0)).x, (grid_to_world (0, 0)).y + 10⟩ = false :=
  C6_is_centered_amended 0 0 10 (by norm_num) (by norm_num)

/-- C6 counterexample: a position offset from the center of cell `(0, 0)`
by a full cell size (32 units, far more than the 3-unit tolerance) on the
x axis still reports centered, because the offset test works modulo the
cell size. -/
theorem C6_is_centered_offset_cex :
    (3 : ℚ) < 32 ∧
    (grid_to_world (0, 0)).x + 32 = 96 ∧
    (grid_to_world (0, 0)).y = 136 ∧
    is_centered ⟨96, 136⟩ = true := by
  refine ⟨by norm_num, ?_, ?_, ?_⟩
  · simp only [grid_to_world, MAZE_OFFSET_X, CELL_SIZE]
    norm_num
  · simp only [grid_to_world, MAZE_OFFSET_Y, CELL_SIZE]
    norm_num
  · unfold is_centered
    norm_num [pyMod, MAZE_OFFSET_X, MAZE_OFFSET_Y, CELL_SIZE]

/-- The direction `Player._move` holds after its first block: the desired
next direction is committed when the player is centered and the adjacent
cell in that direction is not a wall. -/
def Player.committed_dir (wall : Int × Int → Bool) (s : PlayerState) : Direction :=
  if is_centered s.position = true
     ∧ wall ((get_grid_pos s.position).1 + s.next_direction.value.1,
             (get_grid_pos s.position).2 + s.next_direction.value.2) = false
  then s.next_direction else s.direction

theorem Player.move_velocity (wall : Int × Int → Bool) (dt : ℚ) (s : PlayerState) :
    (Player.move wall dt s).velocity
      = if wall ((get_grid_pos s.position).1 + (Player.committed_dir wall s).value.1,
                 (get_grid_pos s.position).2 + (Player.committed_dir wall s).value.2)
           && is_centered s.position
        then ⟨0, 0⟩
        else ⟨((Player.committed_dir wall s).value.1 : ℚ) * s.speed,
              ((Player.committed_dir wall s).value.2 : ℚ) * s.speed⟩ := by
  unfold Player.move Player.committed_dir
  by_cases hc : is_centered s.position = true
  · by_cases hw : wall ((get_grid_pos s.position).1 + s.next_direction.value.1,
        (get_grid_pos s.position).2 + s.next_direction.value.2) = true
    · simp [hc, hw]
    · have hwf : wall ((get_grid_pos s.position).1 + s.next_direction.value.1,
          (get_grid_pos s.position).2 + s.next_direction.value.2) = false := by
        simpa using hw
      simp [hc, hwf]
  · have hcf : is_centered s.position = false := by simpa using hc
    simp [hcf]

/-- C7 amended: if a centered player heading right faces a wall on the
right and its desired next direction is also right (or likewise blocked),
the next update zeroes the velocity; in every other case — not centered,
or the cell ahead of the committed direction (the desired next direction
if it was committed while centered, otherwise the current direction) is
open — the velocity is the committed direction's unit vector times the
player speed.  Unrestricted, the claim fails: an open desired next
direction is committed first and the player turns instead of stopping
(see the counterexample). -/
theorem C7_player_wall_stop_amended (wall : Int × Int → Bool) (dt : ℚ) (s : PlayerState) :
    (is_centered s.position = true →
     s.direction = .RIGHT →
     wall ((get_grid_pos s.position).1 + 1, (get_grid_pos s.position).2) = true →
     (s.next_direction = .RIGHT ∨
      wall ((get_grid_pos s.position).1 + s.next_direction.value.1,
            (get_grid_pos s.position).2 + s.next_direction.value.2) = true) →
     (Player.move wall dt s).velocity = ⟨0, 0⟩) ∧
    ((is_centered s.position = false ∨
      wall ((get_grid_pos s.position).1 + (Player.committed_dir wall s).value.1,
            (get_grid_pos s.position).2 + (Player.committed_dir wall s).value.2) = false) →
     (Player.move wall dt s).velocity
       = ⟨((Player.committed_dir wall s).value.1 : ℚ) * s.speed,
          ((Player.committed_dir wall s).value.2 : ℚ) * s.speed⟩) := by
  constructor
  · intro hc hdir hwall hnext
    have hcd : Player.committed_dir wall s = .RIGHT := by
      unfold Player.committed_dir
      rcases hnext with hn | hn
      · split_ifs with h
        · exact hn
        · exact hdir
      · rw [if_neg]
        · exact hdir
        · intro hcon
          rw [hn] at hcon
          exact absurd hcon.2 (by simp)
    rw [Player.move_velocity, hcd]
    have : wall ((get_grid_pos s.position).1 + Direction.RIGHT.value.1,
        (get_grid_pos s.position).2 + Direction.RIGHT.value.2) = true := by
      simpa [Direction.value] using hwall
    rw [this, hc]
    simp
  · intro h
    rw [Player.move_velocity]
    rcases h with h | h
    · rw [h]
      simp
    · rw [h]
      simp

theorem C7_player_wall_stop_amended_witness :
    (Player.move maze_wall 1
        { Player.init (grid_to_world (11, 1)) with
            direction := .RIGHT, next_direction := .RIGHT }).velocity = ⟨0, 0⟩ := by
  have hpos : ({ Player.init (grid_to_world (11, 1)) with
      direction := Direction.RIGHT, next_direction := Direction.RIGHT } :
      PlayerState).position = grid_to_world (11, 1) := rfl
  apply (C7_player_wall_stop_amended maze_wall 1 _).1
  · rw [hpos]
    exact is_centered_center 11 1
  · rfl
  · rw [hpos, get_grid_pos_center 11 1 (by norm_num) (by norm_num)]
    decide
  · exact Or.inl rfl

/-- C7 counterexample: a player centered at cell `(11, 1)` heading `RIGHT`
with a wall at `(12, 1)` does not stop when its desired next direction
`DOWN` leads to the open cell `(11, 2)`: the turn is committed first and
the next update sets the velocity to `(0, 160)`, not the zero vector. -/
theorem C7_player_wall_stop_cex :
    is_centered (grid_to_world (11, 1)) = true ∧
    is_wall (12, 1) = some true ∧
    is_wall (11, 2) = some false ∧
    (Player.move maze_wall 1
        { Player.init (grid_to_world (11, 1)) with
            direction := .RIGHT, next_direction := .DOWN }).velocity = ⟨0, 160⟩ ∧
    (Vector2.mk 0 160) ≠ ⟨0, 0⟩ := by
  refine ⟨is_centered_center 11 1, by decide, by decide, ?_, ?_⟩
  · have hpos : ({ Player.init (grid_to_world (11, 1)) with
        direction := Direction.RIGHT, next_direction := Direction.DOWN } :
        PlayerState).position = grid_to_world (11, 1) := rfl
    rw [Player.move_velocity]
    have hcd : Player.committed_dir maze_wall
        { Player.init (grid_to_world (11, 1)) with
            direction := Direction.RIGHT, next_direction := Direction.DOWN }
        = Direction.DOWN := by
      unfold Player.committed_dir
      rw [if_pos]
      constructor
      · rw [hpos]
        exact is_centered_center 11 1
      · rw [hpos, get_grid_pos_center 11 1 (by norm_num) (by norm_num)]
        decide
    rw [hcd, hpos, get_grid_pos_center 11 1 (by norm_num) (by norm_num)]
    have hwf : maze_wall ((11 : Int) + Direction.DOWN.value.1,
        (1 : Int) + Direction.DOWN.value.2) = false := by decide
    rw [hwf]
    show Vector2.mk (((0 : Int) : ℚ) * PLAYER_SPEED) (((1 : Int) : ℚ) * PLAYER_SPEED)
        = ⟨0, 160⟩
    norm_num [PLAYER_SPEED]
  · intro h
    have hy := congrArg Vector2.y h
    norm_num at hy

theorem parse_char_eaten {acc : ParseAcc} (r c : Nat) (ch : Char)
    (h : ∀ p ∈ acc.pellets, p.eaten = false) :
    ∀ p ∈ (parse_char r c ch acc).pellets, p.eaten = false := by
  intro p hp
  unfold parse_char at hp
  split_ifs at hp <;>
    simp_all [Pellet.init, List.mem_append]
  all_goals
    rcases hp with hp | rfl
    · exact h p hp
    · rfl

theorem foldl_parse_char_eaten (r : Nat) (l : List (Nat × Char)) (acc : ParseAcc)
    (h : ∀ p ∈ acc.pellets, p.eaten = false) :
    ∀ p ∈ (l.foldl (fun a cch => parse_char r cch.1 cch.2 a) acc).pellets,
      p.eaten = false := by
  induction l generalizing acc with
  | nil => exact h
  | cons x xs ih => exact ih _ (parse_char_eaten r x.1 x.2 h)

theorem foldl_parse_row_eaten (l : List (Nat × List Char)) (acc : ParseAcc)
    (h : ∀ p ∈ acc.pellets, p.eaten = false) :
    ∀ p ∈ (l.foldl (fun acc rrow => parse_row rrow.1 rrow.2 acc) acc).pellets,
      p.eaten = false := by
  induction l generalizing acc with
  | nil => exact h
  | cons x xs ih =>
    refine ih _ ?_
    unfold parse_row
    exact foldl_parse_char_eaten x.1 _ _ h

theorem parse_layout_eaten : ∀ p ∈ parse_layout.pellets, p.eaten = false := by
  unfold parse_layout
  exact foldl_parse_row_eaten _ _ (by intro p hp; simp at hp)

theorem change_state_playing (e : EngineState) (h : (e.scenes .PLAYING).isSome = true) :
    (change_state .PLAYING e).current_scene = some (.playing GameScene.init) ∧
    ((change_state .PLAYING e).scenes .PLAYING).isSome = true := by
  unfold change_state
  rw [if_pos h]
  constructor
  · show (if GameState.PLAYING = GameState.PLAYING
        then fun st => if st = GameState.PLAYING
          then some (SceneState.playing GameScene.init) else e.scenes st
        else e.scenes) GameState.PLAYING = some (.playing GameScene.init)
    rw [if_pos rfl, if_pos rfl]
  · show ((if GameState.PLAYING = GameState.PLAYING
        then fun st => if st = GameState.PLAYING
          then some (SceneState.playing GameScene.init) else e.scenes st
        else e.scenes) GameState.PLAYING).isSome = true
    rw [if_pos rfl, if_pos rfl]
    rfl

/-- C8: `change_state(PLAYING)` always installs a brand-new playing
session: after two consecutive invocations the active scene is the freshly
constructed `GameScene` — score 0, every pellet uneaten, player and ghosts
rebuilt from the spawn data — and the resulting scene is the same whatever
engine state (and in particular whatever earlier session) preceded it, so
nothing from the earlier session is observable in the new one. -/
theorem C8_change_state_fresh_session (e : EngineState)
    (h : (e.scenes .PLAYING).isSome = true) :
    (change_state .PLAYING (change_state .PLAYING e)).current_scene
        = some (.playing GameScene.init) ∧
    (change_state .PLAYING e).current_scene = some (.playing GameScene.init) ∧
    GameScene.init.score = 0 ∧
    (∀ p ∈ GameScene.init.maze.pellets, p.eaten = false) ∧
    GameScene.init.player = Player.init Maze.init.player_start_pos ∧
    GameScene.init.ghosts
        = Maze.init.ghost_start_positions.map (fun np => Ghost.init np.2 COLOR_RED np.1) ∧
    ∀ e' : EngineState, (e'.scenes .PLAYING).isSome = true →
      (change_state .PLAYING e).current_scene
        = (change_state .PLAYING e').current_scene := by
  refine ⟨(change_state_playing _ (change_state_playing e h).2).1,
          (change_state_playing e h).1, rfl, ?_, rfl, rfl, ?_⟩
  · exact fun p hp => parse_layout_eaten p hp
  · intro e' h'
    rw [(change_state_playing e h).1, (change_state_playing e' h').1]

theorem C8_change_state_fresh_session_witness :
    (change_state .PLAYING (change_state .PLAYING GameEngine.init)).current_scene
        = some (.playing GameScene.init) ∧
    GameScene.init.score = 0 :=
  ⟨(C8_change_state_fresh_session GameEngine.init rfl).1,
   (C8_change_state_fresh_session GameEngine.init rfl).2.2.1⟩

end Pacman
